import Mathlib

/-!
Verification development for the ScrapePlayers repository.

The Python sources are shallowly embedded below:
 - an HTML fragment is a `Node` tree (elements with a tag, attributes and
   children, plus text nodes), and the BeautifulSoup queries used by the
   code (`find`, `find_all`, `.text`, `get_text`) are recursive functions
   over that tree;
 - `parse_depth_chart_html` (src/process_defenses.py) is embedded in an
   exception monad (`Except String`): a Python statement that raises an
   uncaught exception becomes `.error`, the function returning `None`
   becomes `.ok none`;
 - the per-cell status detection of the NBA, NHL and MLB row parsers
   (src/scrapeNBA.py, src/scrapeNHL.py, src/scrapeMLB.py) is embedded as
   pure functions from a cell node to `Option String`;
 - the cross-unit consolidator `combine_team_depth_charts`
   (src/start_combining.py) is embedded as a fold over CSV rows with an
   association-list state mirroring the Python dict (insertion order
   preserved, update in place), and Python `list.sort` / `sorted` are
   modelled by the stable insertion sort `pySort`;
 - the MLB `__main__` deduplication (src/scrapeMLB.py) is embedded as a
   fold keyed by `(player_name, team_name)`.
-/

namespace ScrapePlayers

/-! ### Python string primitives (kernel-computable models) -/

/-- Python `str.strip()` on the character list: drop whitespace on both ends. -/
def trimChars (cs : List Char) : List Char :=
  ((cs.dropWhile Char.isWhitespace).reverse.dropWhile Char.isWhitespace).reverse

/-- Python `str.strip()`. -/
def pyStrip (s : String) : String := String.mk (trimChars s.data)

/-- Helper for `pySplitWs`: split on whitespace runs, dropping empty pieces. -/
def splitWsAux : List Char → List Char → List String
  | [], acc => if acc = [] then [] else [String.mk acc.reverse]
  | c :: rest, acc =>
    if Char.isWhitespace c then
      (if acc = [] then [] else [String.mk acc.reverse]) ++ splitWsAux rest []
    else splitWsAux rest (c :: acc)

/-- Python `str.split()` with no argument: split on whitespace runs. -/
def pySplitWs (s : String) : List String := splitWsAux s.data []

/-- Python `str.isdigit()` (restricted to ASCII digits): nonempty and all digits. -/
def pyIsdigit (s : String) : Bool := !s.data.isEmpty && s.data.all Char.isDigit

/-- Does `cand` occur at the start of `l`? (model of Python `str.startswith`). -/
def startsWithCh : List Char → List Char → Bool
  | [], _ => true
  | _ :: _, [] => false
  | a :: as, b :: bs => a = b && startsWithCh as bs

/-- Substring containment (model of Python `needle in hay`). -/
def containsCh (needle : List Char) : List Char → Bool
  | [] => startsWithCh needle []
  | c :: rest => startsWithCh needle (c :: rest) || containsCh needle rest

/-- Python `needle in hay` on strings. -/
def pyContains (needle hay : String) : Bool := containsCh needle.data hay.data

/-- Python `str.startswith` on strings. -/
def pyStartsWith (cand s : String) : Bool := startsWithCh cand.data s.data

/-- Lexicographic strict comparison of character lists: the model of Python
string `<` (a strict prefix is smaller; otherwise compare code points). -/
def chLt : List Char → List Char → Bool
  | [], [] => false
  | [], _ :: _ => true
  | _ :: _, [] => false
  | a :: as, b :: bs => if a < b then true else if b < a then false else chLt as bs

/-- Python string `<`. -/
def strLtB (a b : String) : Bool := chLt a.data b.data

/-- The non-strict total preorder used to model Python's stable sort on strings:
`a` may stay before `b` exactly when `b < a` fails. -/
def strLeB (a b : String) : Bool := !(strLtB b a)

/-- Stable insertion of `a` into an already sorted list: `a` goes after every
element `b` with `le b a` (so ties preserve the original encounter order). -/
def insertSorted (le : α → α → Bool) : List α → α → List α
  | [], a => [a]
  | b :: bs, a => if le b a then b :: insertSorted le bs a else a :: b :: bs

/-- Model of Python's stable `list.sort` / `sorted`: stable insertion sort by
the non-strict preorder `le` (Python sorts by the strict `<` on keys;
`le x y = !(key y < key x)` reproduces exactly the same stable result). -/
def pySort (le : α → α → Bool) (l : List α) : List α := l.foldl (insertSorted le) []

/-- Model of the regular-expression search `\(([^)]+)\)$` used by the
NBA/NHL status fallback: the string must end in a closing parenthesis; the
matched group is what follows the first opening parenthesis that has no
closing parenthesis after it (other than the final one); the group must be
nonempty. Returns the group. -/
def parenFallbackToken (s : String) : Option String :=
  let cs := s.data
  if cs.getLast? = some ')' then
    let body := cs.dropLast
    let tailPart := (body.reverse.takeWhile (fun c => c ≠ ')')).reverse
    match tailPart.dropWhile (fun c => c ≠ '(') with
    | [] => none
    | _ :: rest => if rest = [] then none else some (String.mk rest)
  else none

/-! ### HTML document model and the BeautifulSoup queries used by the code -/

/-- An HTML node: an element with a tag, attribute list and children, or a
text node. The node handed to each embedded parser plays the role of the
`BeautifulSoup` document/fragment object. -/
inductive Node where
  | elem (tag : String) (attrs : List (String × String)) (children : List Node)
  | text (s : String)

/-- The children of a node (a text node has none). -/
def childrenOf : Node → List Node
  | .text _ => []
  | .elem _ _ cs => cs

/-- The tag of a node (empty for text nodes, which never match tag queries). -/
def tagOf : Node → String
  | .text _ => ""
  | .elem t _ _ => t

/-- Attribute lookup, the model of BeautifulSoup `element.get(attr)`. -/
def getAttr : Node → String → Option String
  | .text _, _ => none
  | .elem _ attrs _, k => attrs.lookup k

/-- BeautifulSoup class matching for `class_="c"`: the `class` attribute,
split on whitespace, contains the token `c`. -/
def hasClass (n : Node) (c : String) : Bool :=
  match getAttr n "class" with
  | some s => (pySplitWs s).contains c
  | none => false

mutual

/-- Text fragments of a node in document order (the basis of BeautifulSoup
`.text` and `.get_text`). -/
def nodeFrags : Node → List String
  | .text s => [s]
  | .elem _ _ cs => forestFrags cs

/-- Text fragments of a forest in document order. -/
def forestFrags : List Node → List String
  | [] => []
  | c :: cs => nodeFrags c ++ forestFrags cs

end

/-- BeautifulSoup `.text`: concatenation of all descendant text fragments. -/
def textOf (n : Node) : String := String.join (nodeFrags n)

/-- BeautifulSoup `.get_text(separator=" ", strip=True)`: strip each text
fragment, drop the empty ones, join with a single space. -/
def getTextSp (n : Node) : String :=
  String.intercalate " " (((nodeFrags n).map pyStrip).filter (fun s => s ≠ ""))

mutual

/-- The first descendant of a node (preorder, document order) satisfying `p`:
the model of BeautifulSoup `element.find(...)`. -/
def findInNode (p : Node → Bool) : Node → Option Node
  | .text _ => none
  | .elem _ _ cs => findInForest p cs

/-- The first node in a forest, or among its descendants, satisfying `p`. -/
def findInForest (p : Node → Bool) : List Node → Option Node
  | [] => none
  | c :: cs =>
    match (if p c then some c else findInNode p c) with
    | some r => some r
    | none => findInForest p cs

end

mutual

/-- All descendants of a node (preorder, document order) satisfying `p`:
the model of BeautifulSoup `element.find_all(...)`. -/
def findAllInNode (p : Node → Bool) : Node → List Node
  | .text _ => []
  | .elem _ _ cs => findAllInForest p cs

/-- All nodes of a forest, including descendants, satisfying `p`. -/
def findAllInForest (p : Node → Bool) : List Node → List Node
  | [] => []
  | c :: cs =>
    (if p c then [c] else []) ++ findAllInNode p c ++ findAllInForest p cs

end

/-- BeautifulSoup `root.find(...)`: search the descendants of the given node. -/
def findNode (p : Node → Bool) (root : Node) : Option Node :=
  findInForest p (childrenOf root)

/-- BeautifulSoup `root.find_all(...)`: all matching descendants. -/
def findAllNodes (p : Node → Bool) (root : Node) : List Node :=
  findAllInForest p (childrenOf root)

/-! ### Embedding of `parse_depth_chart_html` (src/process_defenses.py) -/

/-- Matches `soup.find('div', class_='Table__Title')`. -/
def isTitleDiv (n : Node) : Bool := tagOf n = "div" && hasClass n "Table__Title"

/-- Matches `soup.find('table', class_='Table--fixed-left')`. -/
def isLeftTable (n : Node) : Bool := tagOf n = "table" && hasClass n "Table--fixed-left"

/-- Matches `soup.find('div', class_='Table__Scroller')`. -/
def isScrollerDiv (n : Node) : Bool := tagOf n = "div" && hasClass n "Table__Scroller"

/-- Matches `find_all('tr', class_='Table__TR')`. -/
def isTableTR (n : Node) : Bool := tagOf n = "tr" && hasClass n "Table__TR"

/-- Matches `find_all('td', class_='Table__TD')`. -/
def isTableTD (n : Node) : Bool := tagOf n = "td" && hasClass n "Table__TD"

/-- Matches `find('span', `with attribute`data-testid` equal to `statCell`. -/
def isStatCellSpan (n : Node) : Bool :=
  tagOf n = "span" && (getAttr n "data-testid" == some "statCell")

/-- Matches `cell.find('a', class_='AnchorLink')`. -/
def isAnchorLink (n : Node) : Bool := tagOf n = "a" && hasClass n "AnchorLink"

/-- Matches `cell.find('span', class_='nfl-injuries-status')` (class-token match). -/
def isInjurySpanNFL (n : Node) : Bool := tagOf n = "span" && hasClass n "nfl-injuries-status"

/-- A player slot extracted from one table cell by `parse_depth_chart_html`
(lines 58-63 of src/process_defenses.py). -/
structure ParsedPlayer where
  name : String
  url : String
  uid : Option String
  status : Option String
deriving DecidableEq

/-- One entry of `structured_data['positions_and_players']`. -/
structure PosPlayers where
  position : String
  players : List (Option ParsedPlayer)
deriving DecidableEq

/-- The dictionary returned by `parse_depth_chart_html` on success. -/
structure StructuredData where
  formation : String
  positions_and_players : List PosPlayers
deriving DecidableEq

/-- Lines 22-23: the formation title, defaulting to `"Unknown Formation"`
when no title div is present. -/
def formationTitleOf (root : Node) : String :=
  match findNode isTitleDiv root with
  | some t => pyStrip (textOf t)
  | none => "Unknown Formation"

/-- Lines 30-34: one pass of the position-extraction loop over the rows of
the fixed-left table body. `position_span.text.split()[0]` raises IndexError
when the span text is all whitespace. -/
def extractPositions : List Node → Except String (List String)
  | [] => .ok []
  | r :: rs =>
    match findNode isStatCellSpan r with
    | some sp =>
      match pySplitWs (textOf sp) with
      | [] => .error "IndexError"
      | w :: _ =>
        match extractPositions rs with
        | .ok rest => .ok (pyStrip w :: rest)
        | .error e => .error e
    | none => extractPositions rs

/-- Lines 27-38: the `positions` list. `left_table.find('tbody')` evaluates
to `None` when the table has no tbody, so `.find_all` on it raises
AttributeError; when no fixed-left table exists the list stays empty. -/
def positionsOf (root : Node) : Except String (List String) :=
  match findNode isLeftTable root with
  | some lt =>
    match findNode (fun n => tagOf n = "tbody") lt with
    | none => .error "AttributeError"
    | some tb => extractPositions (findAllNodes isTableTR tb)
  | none => .ok []

/-- Lines 48-69: parse one `td` cell into a player slot. A cell without an
anchor link yields `none` in both of the source's sub-branches; a link
without an `href` attribute raises KeyError (`player_link['href']`). -/
def parseCell (cell : Node) : Except String (Option ParsedPlayer) :=
  match findNode isAnchorLink cell with
  | some link =>
    match getAttr link "href" with
    | none => .error "KeyError"
    | some player_url =>
      let player_name := pyStrip (textOf link)
      let player_uid := getAttr link "data-player-uid"
      let injury_status :=
        match findNode isInjurySpanNFL cell with
        | some sp => if pyStrip (textOf sp) ≠ "" then some (pyStrip (textOf sp)) else none
        | none => none
      .ok (some ⟨player_name, player_url, player_uid, injury_status⟩)
  | none => .ok none

/-- Lines 46-70: parse the cells of one row. -/
def parseRowCells : List Node → Except String (List (Option ParsedPlayer))
  | [] => .ok []
  | c :: cs =>
    match parseCell c with
    | .error e => .error e
    | .ok v =>
      match parseRowCells cs with
      | .ok rest => .ok (v :: rest)
      | .error e => .error e

/-- Lines 46-70: parse all player rows of the scrollable table body. -/
def parsePlayerRows : List Node → Except String (List (List (Option ParsedPlayer)))
  | [] => .ok []
  | r :: rs =>
    match parseRowCells (findAllNodes isTableTD r) with
    | .error e => .error e
    | .ok row =>
      match parsePlayerRows rs with
      | .ok rest => .ok (row :: rest)
      | .error e => .error e

/-- Lines 82-90: the record assembler. `num_rows = min(len(positions),
len(player_data_rows))`; row `i` pairs `positions[i]` with
`player_data_rows[i]`; the excess of the longer sequence is dropped. -/
def assembleRows (positions : List String) (player_data_rows : List (List (Option ParsedPlayer))) :
    List PosPlayers :=
  (List.range (min positions.length player_data_rows.length)).map
    (fun i => ⟨positions.getD i "", player_data_rows.getD i []⟩)

/-- Lines 13-92: `parse_depth_chart_html`. `.error` marks an uncaught Python
exception, `.ok none` the explicit `return None`. -/
def parse_depth_chart_html (root : Node) : Except String (Option StructuredData) :=
  match positionsOf root with
  | .error e => .error e
  | .ok positions =>
    if positions = [] then .ok none
    else
      match findNode isScrollerDiv root with
      | none => .ok none
      | some scroller =>
        match findNode (fun n => tagOf n = "table") scroller with
        | none => .ok (some ⟨formationTitleOf root, assembleRows positions []⟩)
        | some rt =>
          match findNode (fun n => tagOf n = "tbody") rt with
          | none => .error "AttributeError"
          | some tb =>
            match parsePlayerRows (findAllNodes isTableTR tb) with
            | .error e => .error e
            | .ok rows => .ok (some ⟨formationTitleOf root, assembleRows positions rows⟩)

/-! ### Status detection of the NBA, NHL and MLB row parsers -/

/-- The NBA status-span filter (src/scrapeNBA.py line 129):
`lambda x: x and ('injuries-status' in x or 'n8' in x)` on the class attr. -/
def isInjurySpanNBA (n : Node) : Bool :=
  tagOf n = "span" &&
    (match getAttr n "class" with
     | some x => x ≠ "" && (pyContains "injuries-status" x || pyContains "n8" x)
     | none => false)

/-- The NHL status-span filter (src/scrapeNHL.py line 113), same predicate. -/
def isInjurySpanNHL (n : Node) : Bool :=
  tagOf n = "span" &&
    (match getAttr n "class" with
     | some x => x ≠ "" && (pyContains "injuries-status" x || pyContains "n8" x)
     | none => false)

/-- The MLB status-span filter (src/scrapeMLB.py line 125):
`lambda x: x and 'nfl-injuries-status' in x`. -/
def isInjurySpanMLB (n : Node) : Bool :=
  tagOf n = "span" &&
    (match getAttr n "class" with
     | some x => x ≠ "" && pyContains "nfl-injuries-status" x
     | none => false)

/-- src/scrapeNBA.py lines 133-140: the parenthesized-token fallback.
The token must not be purely numeric and must be at most 10 characters. -/
def nbaFallbackStatus (cell : Node) : Option String :=
  match parenFallbackToken (getTextSp cell) with
  | some g =>
    let potential_status := pyStrip g
    if pyIsdigit potential_status = false ∧ potential_status.data.length ≤ 10 then
      some potential_status
    else none
  | none => none

/-- src/scrapeNHL.py lines 117-123: the same fallback, with the source's
conjunct order (length first, digit check second). -/
def nhlFallbackStatus (cell : Node) : Option String :=
  match parenFallbackToken (getTextSp cell) with
  | some g =>
    let potential_status := pyStrip g
    if potential_status.data.length ≤ 10 ∧ pyIsdigit potential_status = false then
      some potential_status
    else none
  | none => none

/-- src/scrapeNBA.py lines 128-140: explicit status element first, fallback
second (the fallback also runs when the span exists but its text is blank). -/
def nbaStatusOf (cell : Node) : Option String :=
  match findNode isInjurySpanNBA cell with
  | some sp =>
    if pyStrip (textOf sp) ≠ "" then some (pyStrip (textOf sp)) else nbaFallbackStatus cell
  | none => nbaFallbackStatus cell

/-- src/scrapeNHL.py lines 112-123: explicit status element first, fallback
second. -/
def nhlStatusOf (cell : Node) : Option String :=
  match findNode isInjurySpanNHL cell with
  | some sp =>
    if pyStrip (textOf sp) ≠ "" then some (pyStrip (textOf sp)) else nhlFallbackStatus cell
  | none => nhlFallbackStatus cell

/-- src/scrapeMLB.py lines 122-127: the MLB cell status detection has only
the explicit-element stage; there is no text fallback in the source. -/
def mlbStatusOf (cell : Node) : Option String :=
  match findNode isInjurySpanMLB cell with
  | some sp =>
    if pyStrip (textOf sp) ≠ "" then some (pyStrip (textOf sp)) else none
  | none => none

/-! ### Embedding of `combine_team_depth_charts` (src/start_combining.py) -/

/-- One row of a per-unit CSV as read by `csv.DictReader` (line 92); a
missing column is modelled by the empty string, matching the falsiness test
`if not player_uid` of line 100. -/
structure CsvRow where
  playerUID : String
  playerName : String
  playerURL : String
  injuryStatus : String
  position : String
  depth : String
deriving DecidableEq

/-- The per-player dict of `consolidated_players` (lines 70-77); the
`defaultdict` default has every string field empty and no positions. -/
structure PlayerData where
  playerName : String
  playerURL : String
  playerUID : String
  injuryStatus : String
  all_positions : List (Nat × String × String)
deriving DecidableEq

/-- The `defaultdict` default value (lines 70-77). -/
def defaultPlayerData : PlayerData := ⟨"", "", "", "", []⟩

/-- Python dict lookup on an insertion-ordered association list. -/
def lookupA [DecidableEq κ] : List (κ × β) → κ → Option β
  | [], _ => none
  | (k1, v) :: rest, k => if k1 = k then some v else lookupA rest k

/-- Python dict assignment: update the binding in place when the key exists,
append at the end otherwise (insertion order preserved). -/
def insertA [DecidableEq κ] : List (κ × β) → κ → β → List (κ × β)
  | [], k, v => [(k, v)]
  | (k1, v1) :: rest, k, v =>
    if k1 = k then (k1, v) :: rest else (k1, v1) :: insertA rest k v

/-- The consolidation state: `consolidated_players` as an insertion-ordered map. -/
abbrev CState := List (String × PlayerData)

/-- `consolidated_players[player_uid]` with the `defaultdict` default. -/
def lookupD (s : CState) (k : String) : PlayerData := (lookupA s k).getD defaultPlayerData

/-- Lines 116-119: append `(unit_priority, position, depth)` to the player's
position list unless the position or depth is empty or the exact tuple is
already present. -/
def addPosition (prio : Nat) (r : CsvRow) (d : PlayerData) : PlayerData :=
  if r.position ≠ "" ∧ r.depth ≠ "" ∧ (prio, r.position, r.depth) ∉ d.all_positions then
    { d with all_positions := d.all_positions ++ [(prio, r.position, r.depth)] }
  else d

/-- Lines 92-119: the body of the per-row loop. Rows with a falsy uid, the
placeholder name `-`, or position `Empty Slot` are skipped (line 100).
Display fields are set on first sighting (lines 106-111); afterwards the
status is overwritten only when the stored status equals the literal
`Empty Slot` (line 112). -/
def combineRow (prio : Nat) (s : CState) (r : CsvRow) : CState :=
  if r.playerUID = "" ∨ r.playerName = "-" ∨ r.position = "Empty Slot" then s
  else
    let d0 := lookupD s r.playerUID
    let d1 :=
      if d0.playerName = "" ∨ d0.playerName = "Empty Slot" then
        { d0 with
          playerName := r.playerName
          playerURL := r.playerURL
          playerUID := r.playerUID
          injuryStatus := if r.injuryStatus ≠ "Empty Slot" then r.injuryStatus else "" }
      else if d0.injuryStatus = "Empty Slot" ∧ r.injuryStatus ≠ "Empty Slot" then
        { d0 with injuryStatus := r.injuryStatus }
      else d0
    insertA s r.playerUID (addPosition prio r d1)

/-- Lines 88-119: fold one unit's CSV rows into the state. -/
def combineUnit (prio : Nat) (s : CState) (rows : List CsvRow) : CState :=
  rows.foldl (combineRow prio) s

/-- Lines 22-26 and 90: the unit priority map, defaulting to 999. -/
def unit_priority_map (suffix_key : String) : Nat :=
  if suffix_key = "_offense.csv" then 1
  else if suffix_key = "_defense.csv" then 2
  else if suffix_key = "_special_teams.csv" then 3
  else 999

/-- Lines 79-119: process a team's unit files in priority order (line 80
sorts the file-type keys by `unit_priority_map`), folding each file's rows
into the consolidation state, starting from the empty dict. -/
def combineTeam (files : List (String × List CsvRow)) : CState :=
  (pySort (fun a b => unit_priority_map a.1 ≤ unit_priority_map b.1) files).foldl
    (fun s f => combineUnit (unit_priority_map f.1) s f.2) []

/-- Lines 30-38 and 141: `special_teams_position_order.get(position_name, 999)`. -/
def special_teams_position_order (p : String) : Nat :=
  if p = "PK" then 1
  else if p = "P" then 2
  else if p = "H" then 3
  else if p = "LS" then 4
  else if p = "PR" then 5
  else if p = "KR" then 6
  else 999

/-- The second component of the Python sort-key tuple: an integer for
special-teams entries, the position string otherwise (the two kinds are
never compared with each other because the unit priority differs first). -/
inductive SKey where
  | num (n : Nat)
  | str (s : String)
deriving DecidableEq

/-- Lines 133-145: `get_position_sort_key`. -/
def get_position_sort_key (t : Nat × String × String) : Nat × SKey × String :=
  if t.1 = unit_priority_map "_special_teams.csv" then
    (t.1, .num (special_teams_position_order t.2.1), t.2.2)
  else
    (t.1, .str t.2.1, t.2.2)

/-- Strict comparison of second key components; the cross-constructor cases
are arbitrary (Python would raise TypeError, but such pairs are never
compared: equal unit priorities always produce the same constructor). -/
def skeyLtB : SKey → SKey → Bool
  | .num a, .num b => a < b
  | .str a, .str b => strLtB a b
  | .num _, .str _ => true
  | .str _, .num _ => false

/-- The stable-sort preorder on position tuples induced by the Python
tuple `<` on `get_position_sort_key` values. -/
def posKeyLeB (x y : Nat × String × String) : Bool :=
  let a := get_position_sort_key x
  let b := get_position_sort_key y
  if a.1 < b.1 then true
  else if b.1 < a.1 then false
  else if skeyLtB a.2.1 b.2.1 then true
  else if skeyLtB b.2.1 a.2.1 then false
  else strLeB a.2.2 b.2.2

/-- Line 152: `player_data['all_positions'].sort(key=get_position_sort_key)`. -/
def sortPositions (l : List (Nat × String × String)) : List (Nat × String × String) :=
  pySort posKeyLeB l

/-- The primary position/depth tuple of a player: the head of the sorted
position list (lines 152-154). -/
def primaryOf (s : CState) (k : String) : Option (Nat × String × String) :=
  (sortPositions (lookupD s k).all_positions).head?

/-- Lines 160, 170, 173: `pos_tuple[1] if pos_tuple[1] else ''`. -/
def posField : Option (Nat × String × String) → String
  | some t => t.2.1
  | none => ""

/-- Lines 161, 171, 174: `pos_tuple[2] if pos_tuple[2] else ''`. -/
def depthField : Option (Nat × String × String) → String
  | some t => t.2.2
  | none => ""

/-- Lines 128-129: the output header. -/
def outputHeader : List String :=
  ["TeamName", "PrimaryPosition", "PrimaryDepth", "PlayerName", "PlayerURL", "PlayerUID",
   "InjuryStatus", "Position2", "Depth2", "Position3", "Depth3"]

/-- Lines 150-176: the output row of one player. -/
def playerRow (teamName : String) (d : PlayerData) : List String :=
  let ps := sortPositions d.all_positions
  [teamName, posField ps[0]?, depthField ps[0]?, d.playerName, d.playerURL, d.playerUID,
   d.injuryStatus, posField ps[1]?, depthField ps[1]?, posField ps[2]?, depthField ps[2]?]

/-- Lines 126-178: the rows written to the team's combined CSV; line 148
iterates `sorted(consolidated_players.keys())`. -/
def outputRowsFor (teamName : String) (s : CState) : List (List String) :=
  outputHeader :: (pySort strLeB (s.map Prod.fst)).map (fun k => playerRow teamName (lookupD s k))

/-! ### Embedding of the MLB `__main__` deduplication (src/scrapeMLB.py) -/

/-- One record produced by `parse_mlb_depth_chart_data` (lines 138-147). -/
structure MlbRec where
  team_name : String
  team_abbrev : String
  section_title : String
  position_name : String
  player_name : String
  depth_label : String
  player_url : Option String
  status : Option String
deriving DecidableEq

/-- Lines 226-232: `depth_rank_map.get(depth_label, DEFAULT_DEPTH_RANK)`. -/
def depth_rank_map (s : String) : Nat :=
  if s = "Starter" then 1
  else if s = "1st" then 1
  else if s = "2nd" then 2
  else if s = "3rd" then 3
  else if s = "4th" then 4
  else if s = "5th" then 5
  else if s = "6th" then 6
  else if s = "Depth 1" then 1
  else if s = "Depth 2" then 2
  else if s = "Depth 3" then 3
  else if s = "Depth 4" then 4
  else if s = "Depth 5" then 5
  else if s = "Depth 6" then 6
  else if s = "P" then 1
  else if s = "RP" then 2
  else if s = "CL" then 3
  else 999

/-- Lines 263-280: one step of the MLB deduplication fold. The identity key
is always `(player_name, team_name)`; a later record replaces the stored
one only when its depth rank is strictly better. -/
def mlbDedupStep (st : List ((String × String) × (Nat × MlbRec))) (r : MlbRec) :
    List ((String × String) × (Nat × MlbRec)) :=
  let player_key := (r.player_name, r.team_name)
  let current_depth_rank := depth_rank_map r.depth_label
  match lookupA st player_key with
  | none => st ++ [(player_key, (current_depth_rank, r))]
  | some (stored_depth_rank, _) =>
    if current_depth_rank < stored_depth_rank then
      insertA st player_key (current_depth_rank, r)
    else st

/-- Lines 261-283: deduplicate all raw MLB records and keep the data parts. -/
def mlbDedup (rs : List MlbRec) : List MlbRec :=
  (rs.foldl mlbDedupStep []).map (fun kv => kv.2.2)

/-! ### Theorems -/

/-- Claim C1. The claim states that a player first sighted with an empty
status, later sighted in a lower-priority unit with status `Q`, ends up
with status `Q` (name and URL from the first sighting). The code disagrees:
line 112 of src/start_combining.py overwrites the stored status only when
it equals the literal string `Empty Slot`, which line 111 never stores, so
an empty stored status is never overwritten. Evaluating the embedded
consolidator at the failing input: the player keeps the empty status (and
keeps the first sighting's name and URL), contradicting the claimed final
status `Q`. -/
theorem C1_status_never_overwritten_eval :
    lookupD
      (combineTeam
        [("_offense.csv", [⟨"X", "Alice", "u1", "", "WR", "1"⟩]),
         ("_special_teams.csv", [⟨"X", "Alice", "u2", "Q", "PR", "1"⟩])]) "X"
      = ⟨"Alice", "u1", "X", "", [(1, "WR", "1"), (3, "PR", "1")]⟩ := by rfl

/-- Claim C2, counterexample. Two sightings with the same `(name, team)` and
no uid are dropped by the cross-unit consolidator (line 100 skips every row
with a falsy `PlayerUID`): the consolidation state is empty, not a single
`ConsolidatedPlayer`, refuting that such sightings are never dropped and
consolidate into one record. -/
theorem C2_uidless_rows_dropped_counterexample :
    combineTeam
      [("_offense.csv",
        [⟨"", "Bob", "u1", "", "QB", "1"⟩, ⟨"", "Bob", "u2", "", "QB", "2"⟩])] = [] := by rfl

/-- Claim C2, amended. In the cross-unit consolidator the identity key is
always the uid and every sighting without a uid is skipped (the state is
unchanged); the `(name, team)` identity key is used by the MLB roster
deduplication instead, where two records with the same
`(player_name, team_name)` always consolidate into exactly one record. -/
theorem C2_amended_identity_key :
    (∀ (prio : Nat) (s : CState) (r : CsvRow), r.playerUID = "" → combineRow prio s r = s) ∧
    (∀ r1 r2 : MlbRec, r1.player_name = r2.player_name → r1.team_name = r2.team_name →
      (mlbDedup [r1, r2]).length = 1) := by
  constructor
  · intro prio s r h
    simp [combineRow, h]
  · intro r1 r2 h1 h2
    simp only [mlbDedup, List.foldl, mlbDedupStep, lookupA]
    rw [show (r2.player_name, r2.team_name) = (r1.player_name, r1.team_name) from by
      rw [h1, h2]]
    simp [insertA]
    split <;> simp

/-- Witness for the amended claim C2 at concrete inputs. -/
theorem C2_amended_identity_key_witness :
    combineRow 1 [] ⟨"", "N", "u", "", "QB", "1"⟩ = [] ∧
    (mlbDedup [⟨"T", "t", "S", "C", "N", "Starter", none, none⟩,
               ⟨"T", "t", "S", "1B", "N", "2nd", none, none⟩]).length = 1 :=
  ⟨C2_amended_identity_key.1 1 [] _ rfl, C2_amended_identity_key.2 _ _ rfl rfl⟩

/-- Claim C3. The record assembler produces exactly
`min (len positions) (len player_rows)` depth rows, pairing `positions[i]`
with `player_rows[i]` for every index below the minimum; the excess of the
longer sequence is dropped. -/
theorem C3_assembler_min_zip :
    ∀ (ps : List String) (rs : List (List (Option ParsedPlayer))),
      (assembleRows ps rs).length = min ps.length rs.length ∧
      ∀ i, i < min ps.length rs.length →
        (assembleRows ps rs)[i]? = some ⟨ps.getD i "", rs.getD i []⟩ := by
  intro ps rs
  constructor
  · simp [assembleRows]
  · intro i hi
    simp [assembleRows, List.getElem?_map, List.getElem?_range, hi]

/-- Witness for claim C3: a 3-row position table zipped with a 2-row player
table yields exactly 2 depth rows, row 1 pairing the second position with
the second player row. -/
theorem C3_assembler_min_zip_witness :
    (assembleRows ["QB", "RB", "WR"] [[], [none]]).length = min 3 2 ∧
    (assembleRows ["QB", "RB", "WR"] [[], [none]])[1]? = some ⟨"RB", [none]⟩ :=
  ⟨(C3_assembler_min_zip ["QB", "RB", "WR"] [[], [none]]).1,
   (C3_assembler_min_zip ["QB", "RB", "WR"] [[], [none]]).2 1 (by decide)⟩

/-- Claim C4. The unit priority ranks are Offense=1, Defense=2,
SpecialTeams=3, and a player appearing as Offense/WR/depth 2 and
SpecialTeams/PR/depth 1 has primary position `(WR, 2)` for either input
order of the two unit record sets. -/
theorem C4_unit_priority_primary :
    (unit_priority_map "_offense.csv" = 1 ∧ unit_priority_map "_defense.csv" = 2 ∧
     unit_priority_map "_special_teams.csv" = 3) ∧
    ∀ fs : List (String × List CsvRow),
      (fs = [("_offense.csv", [⟨"X", "A", "u", "", "WR", "2"⟩]),
             ("_special_teams.csv", [⟨"X", "A", "u", "", "PR", "1"⟩])] ∨
       fs = [("_special_teams.csv", [⟨"X", "A", "u", "", "PR", "1"⟩]),
             ("_offense.csv", [⟨"X", "A", "u", "", "WR", "2"⟩])]) →
      primaryOf (combineTeam fs) "X" = some (1, "WR", "2") := by
  refine ⟨⟨rfl, rfl, rfl⟩, ?_⟩
  rintro fs (rfl | rfl) <;> rfl

/-- Witness for claim C4 at the reversed input order. -/
theorem C4_unit_priority_primary_witness :
    primaryOf
      (combineTeam
        [("_special_teams.csv", [⟨"X", "A", "u", "", "PR", "1"⟩]),
         ("_offense.csv", [⟨"X", "A", "u", "", "WR", "2"⟩])]) "X" = some (1, "WR", "2") :=
  C4_unit_priority_primary.2 _ (Or.inr rfl)

/-- Claim C5. Within special teams the fixed intra-unit order ranks
PK before P before H before LS before PR before KR; any position absent from
the table ranks after all listed ones; and a player listed as both P and H
(both at unit rank 3) gets primary position P for either encounter order. -/
theorem C5_special_teams_intra_priority :
    (special_teams_position_order "PK" < special_teams_position_order "P" ∧
     special_teams_position_order "P" < special_teams_position_order "H" ∧
     special_teams_position_order "H" < special_teams_position_order "LS" ∧
     special_teams_position_order "LS" < special_teams_position_order "PR" ∧
     special_teams_position_order "PR" < special_teams_position_order "KR") ∧
    (∀ p : String, p ∉ ["PK", "P", "H", "LS", "PR", "KR"] →
      ∀ q ∈ ["PK", "P", "H", "LS", "PR", "KR"],
        special_teams_position_order q < special_teams_position_order p) ∧
    (∀ rows : List CsvRow,
      (rows = [⟨"X", "A", "u", "", "P", "1"⟩, ⟨"X", "A", "u", "", "H", "1"⟩] ∨
       rows = [⟨"X", "A", "u", "", "H", "1"⟩, ⟨"X", "A", "u", "", "P", "1"⟩]) →
      primaryOf (combineTeam [("_special_teams.csv", rows)]) "X" = some (3, "P", "1")) := by
  refine ⟨by decide, ?_, ?_⟩
  · intro p hp q hq
    simp only [List.mem_cons, List.not_mem_nil, or_false, not_or] at hp
    obtain ⟨h1, h2, h3, h4, h5, h6⟩ := hp
    have hp999 : special_teams_position_order p = 999 := by
      simp [special_teams_position_order, h1, h2, h3, h4, h5, h6]
    rw [hp999]
    fin_cases hq <;> decide
  · rintro rows (rfl | rfl) <;> rfl

/-- Witness for claim C5 discharging the hypotheses at concrete inputs:
the unlisted position `QB` ranks after the listed `KR`, and the H-first
encounter order still selects P as primary. -/
theorem C5_special_teams_intra_priority_witness :
    special_teams_position_order "KR" < special_teams_position_order "QB" ∧
    primaryOf
      (combineTeam
        [("_special_teams.csv",
          [⟨"X", "A", "u", "", "H", "1"⟩, ⟨"X", "A", "u", "", "P", "1"⟩])]) "X"
      = some (3, "P", "1") :=
  ⟨C5_special_teams_intra_priority.2.1 "QB" (by decide) "KR" (by decide),
   C5_special_teams_intra_priority.2.2 _ (Or.inr rfl)⟩

/-- Claim C7, counterexample. A fixed-left table that is present but lacks a
`tbody` makes `parse_depth_chart_html` raise an uncaught AttributeError
(line 30 calls `.find_all` on the `None` returned by
`left_table.find('tbody')`), refuting that the extractor never raises on
malformed or missing nested elements. -/
theorem C7_missing_tbody_raises_counterexample :
    parse_depth_chart_html
      (.elem "div" [] [.elem "table" [("class", "Table--fixed-left")] [.text "x"]])
      = .error "AttributeError" := by rfl

/-- Claim C7, amended. Missing optional elements at the container level do
degrade without raising — when the document has no fixed-left table the
parser returns the explicit failure value `None`, and a missing title div
degrades to the default formation label — but a table that is present while
lacking a `tbody` raises an uncaught AttributeError instead of degrading. -/
theorem C7_amended_degrade :
    (∀ root : Node, findNode isLeftTable root = none →
      parse_depth_chart_html root = .ok none) ∧
    (∀ root : Node, findNode isTitleDiv root = none →
      formationTitleOf root = "Unknown Formation") := by
  constructor
  · intro root h
    simp [parse_depth_chart_html, positionsOf, h]
  · intro root h
    simp [formationTitleOf, h]

/-- Witness for the amended claim C7 at a document with no tables and no
title. -/
theorem C7_amended_degrade_witness :
    parse_depth_chart_html (.elem "div" [] [.text "empty"]) = .ok none ∧
    formationTitleOf (.elem "div" [] [.text "empty"]) = "Unknown Formation" :=
  ⟨C7_amended_degrade.1 _ rfl, C7_amended_degrade.2 _ rfl⟩

/-- Claim C8, counterexample. For a cell whose flattened text ends in the
parenthesized token `(Q)` and that has no explicit status element, the NBA
and NHL parsers produce status `Q` via the fallback stage, but the MLB
parser produces no status: the MLB row parser does not perform the
fallback stage, refuting that all three parsers apply both stages
identically. -/
theorem C8_mlb_lacks_fallback_counterexample :
    mlbStatusOf
      (.elem "td" [("class", "Table__TD")]
        [.elem "div" []
          [.elem "a" [("class", "AnchorLink"), ("href", "/p/1")] [.text "John Doe"],
           .text " (Q)"]]) = none ∧
    nbaStatusOf
      (.elem "td" [("class", "Table__TD")]
        [.elem "div" []
          [.elem "a" [("class", "AnchorLink"), ("href", "/p/1")] [.text "John Doe"],
           .text " (Q)"]]) = some "Q" ∧
    nhlStatusOf
      (.elem "td" [("class", "Table__TD")]
        [.elem "div" []
          [.elem "a" [("class", "AnchorLink"), ("href", "/p/1")] [.text "John Doe"],
           .text " (Q)"]]) = some "Q" := ⟨rfl, rfl, rfl⟩

/-- Claim C8, amended. The NBA and NHL row parsers perform the identical
two-stage status detection (their status results agree on every cell), but
the MLB row parser performs only the explicit-element stage: whenever no
matching status span exists in the cell, the MLB status is absent. -/
theorem C8_amended_two_stage :
    (∀ cell : Node, nbaStatusOf cell = nhlStatusOf cell) ∧
    (∀ cell : Node, findNode isInjurySpanMLB cell = none → mlbStatusOf cell = none) := by
  constructor
  · intro cell
    have hpred : isInjurySpanNBA = isInjurySpanNHL := rfl
    unfold nbaStatusOf nhlStatusOf
    rw [hpred]
    have hfb : nbaFallbackStatus cell = nhlFallbackStatus cell := by
      unfold nbaFallbackStatus nhlFallbackStatus
      cases parenFallbackToken (getTextSp cell) with
      | none => rfl
      | some g => simp only [and_comm]
    rw [hfb]
  · intro cell h
    simp [mlbStatusOf, h]

/-- Witness for the amended claim C8 at a bare text cell. -/
theorem C8_amended_two_stage_witness :
    nbaStatusOf (.text "x") = nhlStatusOf (.text "x") ∧ mlbStatusOf (.text "x") = none :=
  ⟨C8_amended_two_stage.1 _, C8_amended_two_stage.2 _ rfl⟩

/-! Order lemmas for the embedded Python string comparison. -/

theorem chLt_irrefl : ∀ x : List Char, chLt x x = false := by
  intro x
  induction x with
  | nil => rfl
  | cons a as ih => simp [chLt, lt_self_iff_false, ih]

theorem chLt_trans :
    ∀ x y z : List Char, chLt x y = true → chLt y z = true → chLt x z = true := by
  intro x
  induction x with
  | nil =>
    intro y z hxy hyz
    cases y with
    | nil => simp [chLt] at hxy
    | cons b bs =>
      cases z with
      | nil => simp [chLt] at hyz
      | cons c cs => rfl
  | cons a as ih =>
    intro y z hxy hyz
    cases y with
    | nil => simp [chLt] at hxy
    | cons b bs =>
      cases z with
      | nil => simp [chLt] at hyz
      | cons c cs =>
        simp only [chLt] at hxy hyz ⊢
        by_cases hab : a < b
        · by_cases hbc : b < c
          · simp [lt_trans hab hbc]
          · rw [if_neg hbc] at hyz
            by_cases hcb : c < b
            · rw [if_pos hcb] at hyz; exact absurd hyz (by simp)
            · have hbc2 : b = c := le_antisymm (not_lt.mp hcb) (not_lt.mp hbc)
              subst hbc2
              simp [hab]
        · rw [if_neg hab] at hxy
          by_cases hba : b < a
          · rw [if_pos hba] at hxy; exact absurd hxy (by simp)
          · have hab2 : a = b := le_antisymm (not_lt.mp hba) (not_lt.mp hab)
            rw [if_neg hba] at hxy
            subst hab2
            by_cases hac : a < c
            · simp [hac]
            · rw [if_neg hac] at hyz ⊢
              by_cases hca : c < a
              · rw [if_pos hca] at hyz; exact absurd hyz (by simp)
              · rw [if_neg hca] at hyz ⊢
                exact ih bs cs hxy hyz

theorem chLt_trichotomy :
    ∀ x y : List Char, chLt x y = true ∨ x = y ∨ chLt y x = true := by
  intro x
  induction x with
  | nil =>
    intro y
    cases y with
    | nil => exact Or.inr (Or.inl rfl)
    | cons b bs => exact Or.inl rfl
  | cons a as ih =>
    intro y
    cases y with
    | nil => exact Or.inr (Or.inr rfl)
    | cons b bs =>
      rcases lt_trichotomy a b with hab | heq | hba
      · exact Or.inl (by simp [chLt, hab])
      · subst heq
        rcases ih bs with h | h | h
        · exact Or.inl (by simp [chLt, lt_self_iff_false, h])
        · exact Or.inr (Or.inl (by rw [h]))
        · exact Or.inr (Or.inr (by simp [chLt, lt_self_iff_false, h]))
      · exact Or.inr (Or.inr (by simp [chLt, hba]))

theorem strLeB_iff (a b : String) : strLeB a b = true ↔ chLt b.data a.data = false := by
  simp [strLeB, strLtB]

theorem strLeB_total : ∀ a b : String, strLeB a b = true ∨ strLeB b a = true := by
  intro a b
  rw [strLeB_iff, strLeB_iff]
  cases hba : chLt b.data a.data with
  | false => exact Or.inl rfl
  | true =>
    cases hab : chLt a.data b.data with
    | false => exact Or.inr rfl
    | true =>
      have := chLt_trans _ _ _ hab hba
      rw [chLt_irrefl] at this
      exact absurd this (by simp)

theorem strLeB_trans :
    ∀ a b c : String, strLeB a b = true → strLeB b c = true → strLeB a c = true := by
  intro a b c hab hbc
  rw [strLeB_iff] at hab hbc ⊢
  cases hca : chLt c.data a.data with
  | false => rfl
  | true =>
    exfalso
    rcases chLt_trichotomy b.data c.data with h | h | h
    · have := chLt_trans _ _ _ h hca
      rw [hab] at this
      exact absurd this (by simp)
    · rw [← h] at hca
      rw [hab] at hca
      exact absurd hca (by simp)
    · rw [hbc] at h
      exact absurd h (by simp)

theorem strLeB_antisymm :
    ∀ a b : String, strLeB a b = true → strLeB b a = true → a = b := by
  intro a b hab hba
  rw [strLeB_iff] at hab hba
  rcases chLt_trichotomy a.data b.data with h | h | h
  · rw [hba] at h
    exact absurd h (by simp)
  · cases a
    cases b
    exact congrArg String.mk (by simpa using h)
  · rw [hab] at h
    exact absurd h (by simp)

/-! Lemmas about the stable insertion sort modelling Python list.sort. -/

theorem insertSorted_perm (le : α → α → Bool) (l : List α) (a : α) :
    (insertSorted le l a).Perm (a :: l) := by
  induction l with
  | nil => exact List.Perm.refl _
  | cons b bs ih =>
    rw [insertSorted]
    split
    · exact (ih.cons b).trans (List.Perm.swap a b bs)
    · exact List.Perm.refl _

theorem mem_insertSorted (le : α → α → Bool) {l : List α} {a x : α} :
    x ∈ insertSorted le l a ↔ x = a ∨ x ∈ l := by
  rw [(insertSorted_perm le l a).mem_iff]
  exact List.mem_cons

theorem pySort_perm (le : α → α → Bool) (l : List α) : (pySort le l).Perm l := by
  suffices h : ∀ (l acc : List α), (l.foldl (insertSorted le) acc).Perm (acc ++ l) by
    simpa [pySort] using h l []
  intro l
  induction l with
  | nil => intro acc; simp
  | cons x xs ih =>
    intro acc
    rw [List.foldl_cons]
    refine (ih (insertSorted le acc x)).trans ?_
    refine (List.Perm.append_right xs (insertSorted_perm le acc x)).trans ?_
    exact List.perm_middle.symm

theorem insertSorted_pairwise {le : α → α → Bool}
    (htot : ∀ a b, le a b = true ∨ le b a = true)
    (htrans : ∀ a b c, le a b = true → le b c = true → le a c = true) :
    ∀ {l : List α}, l.Pairwise (fun u v => le u v = true) → ∀ a,
      (insertSorted le l a).Pairwise (fun u v => le u v = true) := by
  intro l
  induction l with
  | nil => intro _ a; simp [insertSorted]
  | cons b bs ih =>
    intro hl a
    rcases List.pairwise_cons.mp hl with ⟨hb, hbs⟩
    rw [insertSorted]
    by_cases h : le b a = true
    · rw [if_pos h]
      refine List.pairwise_cons.mpr ⟨?_, ih hbs a⟩
      intro x hx
      rcases (mem_insertSorted le).mp hx with rfl | hx
      · exact h
      · exact hb x hx
    · rw [if_neg h]
      have hab : le a b = true := (htot a b).resolve_right h
      refine List.pairwise_cons.mpr ⟨?_, hl⟩
      intro x hx
      rcases List.mem_cons.mp hx with rfl | hx
      · exact hab
      · exact htrans a b x hab (hb x hx)

theorem pySort_pairwise {le : α → α → Bool}
    (htot : ∀ a b, le a b = true ∨ le b a = true)
    (htrans : ∀ a b c, le a b = true → le b c = true → le a c = true) (l : List α) :
    (pySort le l).Pairwise (fun u v => le u v = true) := by
  suffices h : ∀ (l acc : List α), acc.Pairwise (fun u v => le u v = true) →
      (l.foldl (insertSorted le) acc).Pairwise (fun u v => le u v = true) by
    exact h l [] (by simp)
  intro l
  induction l with
  | nil => intro acc h; simpa using h
  | cons x xs ih =>
    intro acc h
    rw [List.foldl_cons]
    exact ih _ (insertSorted_pairwise htot htrans h x)

/-! Lemmas about the association-list model of Python dicts. -/

theorem lookupA_mem [DecidableEq κ] :
    ∀ {s : List (κ × β)} {k : κ} {v : β}, lookupA s k = some v → (k, v) ∈ s := by
  intro s
  induction s with
  | nil => intro k v h; simp [lookupA] at h
  | cons p rest ih =>
    obtain ⟨k1, v1⟩ := p
    intro k v h
    by_cases hk : k1 = k
    · rw [lookupA, if_pos hk] at h
      obtain rfl : v1 = v := by simpa using h
      subst hk
      exact List.mem_cons_self _ _
    · rw [lookupA, if_neg hk] at h
      exact List.mem_cons_of_mem _ (ih h)

theorem lookupA_eq_none_iff [DecidableEq κ] :
    ∀ {s : List (κ × β)} {k : κ}, lookupA s k = none ↔ k ∉ s.map Prod.fst := by
  intro s
  induction s with
  | nil => intro k; simp [lookupA]
  | cons p rest ih =>
    obtain ⟨k1, v1⟩ := p
    intro k
    by_cases hk : k1 = k
    · subst hk
      simp [lookupA]
    · simp [lookupA, hk, ih, Ne.symm hk]

theorem lookupA_of_mem [DecidableEq κ] :
    ∀ {s : List (κ × β)} {k : κ} {v : β}, (s.map Prod.fst).Nodup → (k, v) ∈ s →
      lookupA s k = some v := by
  intro s
  induction s with
  | nil => intro k v _ h; simp at h
  | cons p rest ih =>
    obtain ⟨k1, v1⟩ := p
    intro k v hnd hm
    have hnd2 : k1 ∉ rest.map Prod.fst ∧ (rest.map Prod.fst).Nodup := by
      simpa [List.nodup_cons] using hnd
    rcases List.mem_cons.mp hm with heq | hm
    · obtain ⟨rfl, rfl⟩ : k = k1 ∧ v = v1 := by simpa using heq
      simp [lookupA]
    · have hk : k1 ≠ k := by
        intro h
        subst h
        exact hnd2.1 (List.mem_map.mpr ⟨(k1, v), hm, rfl⟩)
      rw [lookupA, if_neg hk]
      exact ih hnd2.2 hm

theorem lookupA_perm [DecidableEq κ] {s₁ s₂ : List (κ × β)} (hp : s₁.Perm s₂)
    (hnd : (s₁.map Prod.fst).Nodup) (k : κ) : lookupA s₁ k = lookupA s₂ k := by
  have hnd2 : (s₂.map Prod.fst).Nodup := ((hp.map Prod.fst).nodup_iff).mp hnd
  cases h1 : lookupA s₁ k with
  | some v => exact (lookupA_of_mem hnd2 (hp.subset (lookupA_mem h1))).symm
  | none =>
    cases h2 : lookupA s₂ k with
    | none => rfl
    | some v =>
      exfalso
      have hmem : (k, v) ∈ s₁ := hp.symm.subset (lookupA_mem h2)
      exact (lookupA_eq_none_iff.mp h1) (List.mem_map.mpr ⟨(k, v), hmem, rfl⟩)

/-- Claim C6. The final per-team output is deterministic: it iterates
player identities in sorted identity-key order, so the emitted rows depend
only on the stored bindings and not on the dict's incidental insertion
order (any permutation of the state with the same distinct keys produces
byte-identical rows), and the iterated key sequence is sorted under the
Python string order. Two runs of the embedded pure pipeline on equal input
are definitionally equal, so this permutation invariance is the
reproducibility content of the claim. -/
theorem C6_deterministic_sorted_output :
    (∀ (teamName : String) (s₁ s₂ : CState), s₁.Perm s₂ → (s₁.map Prod.fst).Nodup →
      outputRowsFor teamName s₁ = outputRowsFor teamName s₂) ∧
    (∀ s : CState,
      (pySort strLeB (s.map Prod.fst)).Pairwise (fun a b => strLeB a b = true)) := by
  constructor
  · intro teamName s₁ s₂ hp hnd
    have hkeys : (s₁.map Prod.fst).Perm (s₂.map Prod.fst) := hp.map Prod.fst
    have hsorteq : pySort strLeB (s₁.map Prod.fst) = pySort strLeB (s₂.map Prod.fst) := by
      have antis : IsAntisymm String (fun a b => strLeB a b = true) := ⟨strLeB_antisymm⟩
      have hperm : (pySort strLeB (s₁.map Prod.fst)).Perm (pySort strLeB (s₂.map Prod.fst)) :=
        (pySort_perm strLeB _).trans (hkeys.trans (pySort_perm strLeB _).symm)
      exact @List.eq_of_perm_of_sorted String (fun a b => strLeB a b = true) antis _ _ hperm
        (pySort_pairwise strLeB_total strLeB_trans _)
        (pySort_pairwise strLeB_total strLeB_trans _)
    unfold outputRowsFor
    rw [hsorteq]
    congr 1
    refine List.map_congr_left ?_
    intro k _
    have hlook : lookupD s₁ k = lookupD s₂ k := by
      unfold lookupD
      rw [lookupA_perm hp hnd k]
    rw [hlook]
  · intro s
    exact pySort_pairwise strLeB_total strLeB_trans _

/-- Witness for claim C6: two insertion orders of the same two players emit
identical rows. -/
theorem C6_deterministic_sorted_output_witness :
    outputRowsFor "T" [("b", defaultPlayerData), ("a", defaultPlayerData)] =
      outputRowsFor "T" [("a", defaultPlayerData), ("b", defaultPlayerData)] :=
  C6_deterministic_sorted_output.1 "T" _ _
    (List.Perm.swap ("a", defaultPlayerData) ("b", defaultPlayerData) [])
    (by decide)

/-! Lemmas for the no-duplicate-positions invariant. -/

theorem mem_insertA [DecidableEq κ] :
    ∀ {s : List (κ × β)} {k : κ} {v : β} {e : κ × β},
      e ∈ insertA s k v → e ∈ s ∨ e = (k, v) := by
  intro s
  induction s with
  | nil =>
    intro k v e h
    simp [insertA] at h
    exact Or.inr h
  | cons p rest ih =>
    obtain ⟨k1, v1⟩ := p
    intro k v e h
    rw [insertA] at h
    by_cases hk : k1 = k
    · rw [if_pos hk] at h
      rcases List.mem_cons.mp h with rfl | h
      · exact Or.inr (by rw [hk])
      · exact Or.inl (List.mem_cons_of_mem _ h)
    · rw [if_neg hk] at h
      rcases List.mem_cons.mp h with rfl | h
      · exact Or.inl (List.mem_cons_self _ _)
      · rcases ih h with h | h
        · exact Or.inl (List.mem_cons_of_mem _ h)
        · exact Or.inr h

theorem addPosition_nodup {prio : Nat} {r : CsvRow} {d : PlayerData}
    (h : d.all_positions.Nodup) : (addPosition prio r d).all_positions.Nodup := by
  unfold addPosition
  split
  · rename_i hc
    refine List.Nodup.append h (List.nodup_singleton _) ?_
    intro x hx hx2
    rw [List.mem_singleton.mp hx2] at hx
    exact hc.2.2 hx
  · exact h

theorem lookupD_nodup {s : CState} (hs : ∀ e ∈ s, e.2.all_positions.Nodup) (k : String) :
    (lookupD s k).all_positions.Nodup := by
  unfold lookupD
  cases h : lookupA s k with
  | none => simp [defaultPlayerData]
  | some v => simpa using hs (k, v) (lookupA_mem h)

theorem combineRow_nodup (prio : Nat) (r : CsvRow) {s : CState}
    (hs : ∀ e ∈ s, e.2.all_positions.Nodup) :
    ∀ e ∈ combineRow prio s r, e.2.all_positions.Nodup := by
  intro e he
  simp only [combineRow] at he
  split at he
  · exact hs e he
  · rcases mem_insertA he with h | rfl
    · exact hs e h
    · apply addPosition_nodup
      have h0 : (lookupD s r.playerUID).all_positions.Nodup := lookupD_nodup hs _
      split
      · exact h0
      · split
        · exact h0
        · exact h0

theorem combineUnit_nodup (prio : Nat) :
    ∀ (rows : List CsvRow) (s : CState), (∀ e ∈ s, e.2.all_positions.Nodup) →
      ∀ e ∈ combineUnit prio s rows, e.2.all_positions.Nodup := by
  intro rows
  induction rows with
  | nil => intro s hs; simpa [combineUnit] using hs
  | cons r rest ih =>
    intro s hs
    have hstep := combineRow_nodup prio r hs
    simpa [combineUnit, List.foldl_cons] using ih (combineRow prio s r) hstep

theorem combineFold_nodup :
    ∀ (fs : List (String × List CsvRow)) (s : CState),
      (∀ e ∈ s, e.2.all_positions.Nodup) →
      ∀ e ∈ fs.foldl (fun s f => combineUnit (unit_priority_map f.1) s f.2) s,
        e.2.all_positions.Nodup := by
  intro fs
  induction fs with
  | nil => intro s hs; simpa using hs
  | cons f rest ih =>
    intro s hs
    rw [List.foldl_cons]
    exact ih _ (combineUnit_nodup _ _ _ hs)

/-- Claim C9. After folding in any sequence of unit files, every player's
accumulated position list contains no duplicate
`(unitRank, position, depth)` tuple, and adding a tuple that is already
present leaves the list unchanged. -/
theorem C9_no_duplicate_position_tuples :
    (∀ files : List (String × List CsvRow), ∀ e ∈ combineTeam files,
      e.2.all_positions.Nodup) ∧
    (∀ (prio : Nat) (r : CsvRow) (d : PlayerData),
      (prio, r.position, r.depth) ∈ d.all_positions → addPosition prio r d = d) := by
  constructor
  · intro files e he
    have he2 : e ∈ (pySort (fun a b => unit_priority_map a.1 ≤ unit_priority_map b.1)
        files).foldl (fun s f => combineUnit (unit_priority_map f.1) s f.2) [] := he
    exact combineFold_nodup _ [] (by simp) e he2
  · intro prio r d h
    simp [addPosition, h]

/-- Witness for claim C9: the state after one concrete file has a
duplicate-free position list, and re-adding the present tuple is the
identity. -/
theorem C9_no_duplicate_position_tuples_witness :
    ((⟨"A", "u", "X", "", [(1, "WR", "1")]⟩ : PlayerData).all_positions.Nodup) ∧
    addPosition 1 ⟨"X", "A", "u", "", "WR", "1"⟩ ⟨"A", "u", "X", "", [(1, "WR", "1")]⟩ =
      ⟨"A", "u", "X", "", [(1, "WR", "1")]⟩ :=
  ⟨C9_no_duplicate_position_tuples.1 [("_offense.csv", [⟨"X", "A", "u", "", "WR", "1"⟩])]
      ("X", ⟨"A", "u", "X", "", [(1, "WR", "1")]⟩) (by decide),
   C9_no_duplicate_position_tuples.2 1 _ _ (by decide)⟩

/-- Claim C10. Whenever the positions extraction yields an empty list —
whether the fixed-left table is absent or present with rows yielding zero
position labels — `parse_depth_chart_html` returns the no-record value
`None` and the unit contributes no records. -/
theorem C10_empty_positions_returns_none :
    ∀ root : Node, positionsOf root = .ok [] → parse_depth_chart_html root = .ok none := by
  intro root h
  simp [parse_depth_chart_html, h]

/-- Witness for claim C10: a fixed-left table that is present with an empty
`tbody` yields zero position labels and the parser returns `None`. -/
theorem C10_empty_positions_returns_none_witness :
    positionsOf
      (.elem "div" []
        [.elem "table" [("class", "Table--fixed-left")] [.elem "tbody" [] []]]) = .ok [] ∧
    parse_depth_chart_html
      (.elem "div" []
        [.elem "table" [("class", "Table--fixed-left")] [.elem "tbody" [] []]]) = .ok none :=
  ⟨rfl, C10_empty_positions_returns_none _ rfl⟩

end ScrapePlayers
